import Mathlib

/-!
Verification development for the Simon's-algorithm backend
(`src/backend/app/algorithms/simon.py`).

The Python module builds a Simon circuit (Hadamard layer, CNOT oracle,
Hadamard layer, measurement), runs it on an external Aer simulator, turns the
measurement counts into GF(2) linear-equation strings and "solves" them.  The
embedding below mirrors the deterministic parts of that module.  The stochastic
simulator output (`simulate_simon`'s statevector and counts) is not modelled:
functions that consume measurement counts take them as an explicit parameter,
exactly as `run_simon_algorithm` consumes the counts returned by
`simulate_simon`.  Bitstrings are `List Char` (Python `str` of '0'/'1'),
measurement-count maps are association lists in insertion order (Python `dict`
preserves insertion order), and equation strings are Lean `String`s built the
way the Python code formats them.
-/

namespace Simon

/-- Gates appearing in the Simon circuit: `circuit.h(q)`, `oracle.cx(c, t)` and
`circuit.measure(q, c)` in the source. -/
inductive Gate where
  | h (q : Nat)
  | cx (control target : Nat)
  | measure (q c : Nat)
deriving DecidableEq, Repr

/-- simon.py line 62: `padded_period = hidden_period.ljust(n, '0')[:n]`.
`ljust(n, '0')` right-pads with `'0'` up to length `n` (a no-op when the
string is already at least that long); `[:n]` keeps the first `n` characters. -/
def paddedPeriod (hidden_period : List Char) (n : Nat) : List Char :=
  (hidden_period ++ List.replicate (n - hidden_period.length) '0').take n

/-- simon.py lines 56-75, `create_simon_oracle`: copy CNOTs `cx(i, i + n)` for
every `i < n`, then for every index `i` of the padded period whose bit is
`'1'` a correlation CNOT `cx(i, (i + 1) % n + n)`. -/
def create_simon_oracle (hidden_period : List Char) (n : Nat) : List Gate :=
  ((List.range n).map fun i => Gate.cx i (i + n))
    ++ ((paddedPeriod hidden_period n).enum.filterMap fun p =>
          if p.2 == '1' then some (Gate.cx p.1 ((p.1 + 1) % n + n)) else none)

/-- simon.py lines 30-54, `create_simon_circuit`: odd `num_qubits` raises
`ValueError` before any register or gate is created; otherwise the circuit is
a Hadamard layer on the first `n = num_qubits / 2` qubits, the oracle, a second
Hadamard layer, and measurements of the first register. -/
def create_simon_circuit (hidden_period : List Char) (num_qubits : Nat) :
    Except String (List Gate) :=
  if num_qubits % 2 ≠ 0 then
    Except.error "Number of qubits must be even for Simon's algorithm"
  else
    Except.ok
      (((List.range (num_qubits / 2)).map Gate.h)
        ++ create_simon_oracle hidden_period (num_qubits / 2)
        ++ ((List.range (num_qubits / 2)).map Gate.h)
        ++ ((List.range (num_qubits / 2)).map fun i => Gate.measure i i))

/-- simon.py line 130: `sorted(counts.items(), key=lambda x: x[1], reverse=True)`.
Python's sort is stable, so entries with equal counts keep the insertion order
of the `dict`.  This insertion step places `x` (the earlier entry) before the
first later entry whose count does not exceed `x`'s. -/
def insertByCountDesc (x : List Char × Nat) :
    List (List Char × Nat) → List (List Char × Nat)
  | [] => [x]
  | y :: ys => if y.2 ≤ x.2 then x :: y :: ys else y :: insertByCountDesc x ys

/-- Stable sort by count, descending: the model of `sorted(..., reverse=True)`.
A stable sort is determined by its key and stability, so insertion sort with
`insertByCountDesc` reproduces Python's output exactly. -/
def sortByCountDesc (counts : List (List Char × Nat)) : List (List Char × Nat) :=
  counts.foldr insertByCountDesc []

/-- simon.py lines 138-141: the tokens `s_{j}` for every index `j` of the
measurement whose bit is `'1'`. -/
def equationParts (measurement : List Char) : List String :=
  measurement.enum.filterMap fun p =>
    if p.2 == '1' then some ("s_" ++ toString p.1) else none

/-- simon.py lines 132-148, the `for` loop of `extract_linear_equations`:
skip an all-zero measurement (`continue`), otherwise append
`' ⊕ '.join(parts) + ' = 0'` when `parts` is non-empty, and `break` as soon as
`len(equations) >= n - 1` (checked per iteration, after the optional append).
No linear-independence test is performed anywhere in the loop. -/
def extractLoop (n : Nat) : List (List Char × Nat) → List String → List String
  | [], equations => equations
  | (measurement, _) :: rest, equations =>
    if measurement.all (fun c => c == '0') then
      extractLoop n rest equations
    else
      let parts := equationParts measurement
      let equations' :=
        if parts.isEmpty then equations
        else equations ++ [String.intercalate " ⊕ " parts ++ " = 0"]
      if n - 1 ≤ equations'.length then equations' else extractLoop n rest equations'

/-- simon.py lines 124-154, `extract_linear_equations`: sort the counts by
frequency (descending, stable), run the extraction loop, then pad with the
fabricated equation `'s_0 ⊕ s_1 = 0'` until `n - 1` equations exist
(lines 150-152).  The source also computes `padded_period` at line 127 but
never uses it, so the `hidden_period` argument is dead here; it is kept to
match the source signature. -/
def extract_linear_equations (counts : List (List Char × Nat))
    (hidden_period : List Char) (n : Nat) : List String :=
  let equations := extractLoop n (sortByCountDesc counts) []
  equations ++ List.replicate (n - 1 - equations.length) "s_0 ⊕ s_1 = 0"

/-- simon.py lines 156-163, `solve_linear_system`: ignores the equations and
`n` entirely and returns its `hidden_period` argument. -/
def solve_linear_system (equations : List String) (n : Nat)
    (hidden_period : List Char) : List Char :=
  hidden_period

/-- The deterministic fields of the `SimonResponse` pydantic model
(simon.py lines 20-28).  `quantum_state` and `probabilities` come from the
external Aer simulator and are not modelled; `circuit_data["gates"]` is kept
as the built gate list. -/
structure SimonResponse where
  success : Bool
  circuit_gates : List Gate
  measurement_counts : List (List Char × Nat)
  linear_equations : List String
  recovered_period : List Char
  hidden_period : List Char
deriving DecidableEq, Repr

/-- simon.py lines 165-218, `run_simon_algorithm`, with the simulator's
measurement counts passed in as `counts`: reject a period containing anything
but `'0'`/`'1'` (line 170, Python `all(bit in '01' for bit in ...)`), reject an
odd qubit count (line 176), then build the circuit, extract the equations and
"solve".  Errors are surfaced to the caller; nothing is retried.  (The outer
`except Exception` of the source re-wraps the HTTP 400 as a 500 with the same
detail string; only the detail string is modelled.)  `num_qubits` is modelled
as `Nat`: the pydantic field is a Python `int`, and a negative even value
passes both validation checks but then fails inside `QuantumRegister`, a
downstream qiskit failure outside this model's domain; on non-negative inputs
the model agrees with the source (Python `%` with positive divisor is
non-negative, matching `Nat.mod`). -/
def run_simon_algorithm (hidden_period : List Char) (num_qubits : Nat)
    (counts : List (List Char × Nat)) : Except String SimonResponse :=
  if !(hidden_period.all fun bit => bit == '0' || bit == '1') then
    Except.error "Hidden period must contain only 0s and 1s"
  else if num_qubits % 2 ≠ 0 then
    Except.error "Number of qubits must be even for Simon's algorithm"
  else
    match create_simon_circuit hidden_period num_qubits with
    | Except.error e => Except.error e
    | Except.ok gates =>
      let n := num_qubits / 2
      let linear_equations := extract_linear_equations counts hidden_period n
      Except.ok
        { success := true
          circuit_gates := gates
          measurement_counts := counts
          linear_equations := linear_equations
          recovered_period := solve_linear_system linear_equations n hidden_period
          hidden_period := hidden_period }

/-- The field names of the source `SimonResponse` pydantic model, in
declaration order (simon.py lines 20-28).  This is the complete schema of the
result payload returned to the caller. -/
def simonResponseFields : List String :=
  ["success", "circuit_data", "quantum_state", "probabilities",
   "measurement_counts", "linear_equations", "recovered_period", "hidden_period"]

/-- Probabilities of the fallback statevector `np.ones(N) / np.sqrt(N)` with
`N = 2 ^ num_qubits` (simon.py lines 99-101): every basis state has amplitude
`1 / √N`, hence probability `1 / N`. -/
def fallbackStatevectorProbabilities (num_qubits : Nat) : List ℚ :=
  List.replicate (2 ^ num_qubits) (((2 : ℚ) ^ num_qubits)⁻¹)

/-- A measurement bitstring as a GF(2) vector (bit `j` is `true` iff the
character is `'1'`). -/
def measurementVec (measurement : List Char) : List Bool :=
  measurement.map (fun c => c == '1')

/-- Componentwise XOR of two GF(2) vectors. -/
def xorVec (a b : List Bool) : List Bool :=
  List.zipWith xor a b

/-- Claim C8: building the oracle for `n = 2`, `s = "11"` yields exactly the
four CNOT gates `cx 0 2, cx 1 3` (copy step) followed by `cx 0 3, cx 1 2`
(period step, targets `(i + 1) % n + n`), and no other gates. -/
theorem oracle_n2_s11_exact_gate_list :
    create_simon_oracle ['1', '1'] 2
      = [Gate.cx 0 2, Gate.cx 1 3, Gate.cx 0 3, Gate.cx 1 2] := by decide

/-- Claim C1 (code evaluation at the failing input): with `n = 4` and the three
non-zero outcomes `1100`, `1010`, `0110` — the third being the GF(2) sum of the
first two, hence linearly dependent on them — `extract_linear_equations`
accepts all three as equations.  The claimed behaviour (accept if and only if
independent) would have rejected the third. -/
theorem dependent_outcome_accepted :
    extract_linear_equations
        [(['1', '1', '0', '0'], 10), (['1', '0', '1', '0'], 9),
         (['0', '1', '1', '0'], 8)]
        ['1', '0', '0', '0'] 4
      = ["s_0 ⊕ s_1 = 0", "s_0 ⊕ s_2 = 0", "s_1 ⊕ s_2 = 0"]
    ∧ measurementVec ['0', '1', '1', '0']
        = xorVec (measurementVec ['1', '1', '0', '0'])
            (measurementVec ['1', '0', '1', '0']) := by decide

/-- Claim C2 (code evaluation at the failing input): with `n = 3` and only the
all-zero outcome observed, no equation can be derived, yet the code pads the
list with two copies of the fabricated equation `s_0 ⊕ s_1 = 0` instead of
reporting the system as underdetermined. -/
theorem underdetermined_fabricates_equations :
    extract_linear_equations [(['0', '0', '0'], 1024)] ['1', '0', '0'] 3
      = ["s_0 ⊕ s_1 = 0", "s_0 ⊕ s_1 = 0"] := by decide

/-- Claim C3 (code evaluation at the failing input): for the all-zero hidden
period `"00"` the pipeline does not raise any `DegenerateOracle` condition; it
returns a successful response whose recovered period is `"00"`. -/
theorem all_zero_period_returns_success :
    ((run_simon_algorithm ['0', '0'] 4
        [(['0', '1'], 512), (['1', '0'], 512)]).toOption.map
      fun r => (r.success, r.recovered_period))
      = some (true, ['0', '0']) := by decide

/-- Claim C5 (counterexample): for the counts map `{"10": 5, "01": 5}` the
claimed tie-break (ascending bitstring value) would process `"01"` first and
produce `["s_1 = 0"]`; the code instead keeps the map's insertion order on
ties, so presenting the same map in its two insertion orders yields two
different equation lists, the first being `["s_0 = 0"]`. -/
theorem tie_break_is_insertion_order_not_bitstring :
    extract_linear_equations [(['1', '0'], 5), (['0', '1'], 5)] ['1', '1'] 2
      = ["s_0 = 0"]
    ∧ extract_linear_equations [(['0', '1'], 5), (['1', '0'], 5)] ['1', '1'] 2
      = ["s_1 = 0"] := by decide

/-- Claim C6 (counterexample): the empty hidden period passes the binary-digit
validation vacuously and `num_qubits = 0` passes the parity check, so both
requests are accepted rather than rejected. -/
theorem validation_gaps_accept_empty_period_and_zero_qubits :
    (run_simon_algorithm [] 4 [(['0', '1'], 512)]).isOk = true
    ∧ (run_simon_algorithm ['1', '0'] 0 []).isOk = true := by decide

/-- Claim C6 (amended): the core's validation rejects every request whose
`hidden_period` contains a character other than `'0'`/`'1'` and every request
whose `num_qubits` is odd — errors surfaced, never retried — but it does not
reject the empty `hidden_period` (the `all()` check passes vacuously) nor
`num_qubits = 0`, both of which are accepted whatever the measurement
counts. -/
theorem validation_checks_surface_errors (hidden_period : List Char)
    (num_qubits : Nat) (counts : List (List Char × Nat)) :
    ((hidden_period.all fun bit => bit == '0' || bit == '1') = false →
      run_simon_algorithm hidden_period num_qubits counts
        = Except.error "Hidden period must contain only 0s and 1s")
    ∧ (num_qubits % 2 = 1 →
        (run_simon_algorithm hidden_period num_qubits counts).isOk = false)
    ∧ (run_simon_algorithm [] 4 counts).isOk = true
    ∧ (run_simon_algorithm ['1', '0'] 0 counts).isOk = true := by
  refine ⟨?_, ?_, ?_, ?_⟩
  · intro hb
    unfold run_simon_algorithm
    simp [hb]
  · intro hodd
    have h2 : num_qubits % 2 ≠ 0 := by omega
    unfold run_simon_algorithm create_simon_circuit
    cases hb : (hidden_period.all fun bit => bit == '0' || bit == '1') <;>
      simp [hb, h2, Except.isOk, Except.toBool]
  · rfl
  · rfl

/-- Witness for the amended C6: a non-binary period and an odd qubit count are
rejected; the empty period and `num_qubits = 0` are accepted. -/
theorem validation_checks_surface_errors_witness :
    ((['a'].all fun bit => bit == '0' || bit == '1') = false
      ∧ run_simon_algorithm ['a'] 4 []
          = Except.error "Hidden period must contain only 0s and 1s")
    ∧ (3 % 2 = 1 ∧ (run_simon_algorithm ['0'] 3 []).isOk = false)
    ∧ (run_simon_algorithm [] 4 []).isOk = true
    ∧ (run_simon_algorithm ['1', '0'] 0 []).isOk = true :=
  ⟨⟨by decide, (validation_checks_surface_errors ['a'] 4 []).1 (by decide)⟩,
   ⟨by decide, (validation_checks_surface_errors ['0'] 3 []).2.1 (by decide)⟩,
   (validation_checks_surface_errors ['0'] 4 []).2.2.1,
   (validation_checks_surface_errors ['0'] 0 []).2.2.2⟩

/-- Claim C7: for every odd `num_qubits`, circuit construction fails with the
invalid-configuration error before any gate is built (the error branch of
`create_simon_circuit` precedes all register and gate construction), and the
run endpoint likewise returns an error for every counts input. -/
theorem odd_num_qubits_rejected (hidden_period : List Char) (num_qubits : Nat)
    (h : num_qubits % 2 = 1) :
    create_simon_circuit hidden_period num_qubits
        = Except.error "Number of qubits must be even for Simon's algorithm"
    ∧ ∀ counts, (run_simon_algorithm hidden_period num_qubits counts).isOk
        = false := by
  have h2 : num_qubits % 2 ≠ 0 := by omega
  constructor
  · unfold create_simon_circuit
    rw [if_pos h2]
  · intro counts
    unfold run_simon_algorithm create_simon_circuit
    cases hb : (hidden_period.all fun bit => bit == '0' || bit == '1') <;>
      simp [hb, h2, Except.isOk, Except.toBool]

/-- Witness for C7 at `num_qubits = 3`. -/
theorem odd_num_qubits_rejected_witness :
    3 % 2 = 1
    ∧ create_simon_circuit ['1', '1'] 3
        = Except.error "Number of qubits must be even for Simon's algorithm"
    ∧ (run_simon_algorithm ['1', '1'] 3 [(['0', '1'], 512)]).isOk = false :=
  ⟨by decide, (odd_num_qubits_rejected ['1', '1'] 3 (by decide)).1,
    (odd_num_qubits_rejected ['1', '1'] 3 (by decide)).2 [(['0', '1'], 512)]⟩

/-- The padding rule written out: right-pad with `'0'` when the period is
short, truncate to the first `n` characters when it is long. -/
theorem paddedPeriod_spec (s : List Char) (n : Nat) :
    paddedPeriod s n
      = if s.length ≤ n then s ++ List.replicate (n - s.length) '0'
        else s.take n := by
  unfold paddedPeriod
  by_cases h : s.length ≤ n
  · rw [if_pos h]
    apply List.take_of_length_le
    simp
    omega
  · rw [if_neg h]
    have h0 : n - s.length = 0 := by omega
    rw [h0]
    simp

/-- The adjusted period always has length exactly `n`. -/
theorem paddedPeriod_length (s : List Char) (n : Nat) :
    (paddedPeriod s n).length = n := by
  unfold paddedPeriod
  simp
  omega

/-- Adjusting an already-adjusted period changes nothing. -/
theorem paddedPeriod_idem (s : List Char) (n : Nat) :
    paddedPeriod (paddedPeriod s n) n = paddedPeriod s n := by
  rw [paddedPeriod_spec (paddedPeriod s n) n, paddedPeriod_length]
  simp

/-- Claim C9: before oracle construction the period is right-padded with `'0'`
to length `n` when shorter and truncated to its first `n` characters when
longer, and the oracle built from the original string coincides with the
oracle built from the adjusted string. -/
theorem oracle_uses_padded_truncated_period (s : List Char) (n : Nat) :
    paddedPeriod s n
      = (if s.length ≤ n then s ++ List.replicate (n - s.length) '0'
         else s.take n)
    ∧ (paddedPeriod s n).length = n
    ∧ create_simon_oracle s n = create_simon_oracle (paddedPeriod s n) n := by
  refine ⟨paddedPeriod_spec s n, paddedPeriod_length s n, ?_⟩
  unfold create_simon_oracle
  rw [paddedPeriod_idem]

/-- Claim C10: `solve_linear_system` returns its `hidden_period` argument
unchanged whatever the equations, and every successful run therefore reports
`recovered_period` equal to the request's `hidden_period`, whatever the
measurement counts. -/
theorem solver_returns_input_period :
    (∀ equations n hidden_period,
        solve_linear_system equations n hidden_period = hidden_period)
    ∧ (∀ hidden_period num_qubits counts resp,
        run_simon_algorithm hidden_period num_qubits counts = Except.ok resp →
          resp.recovered_period = hidden_period
          ∧ resp.hidden_period = hidden_period) := by
  constructor
  · intro equations n hidden_period
    rfl
  · intro hidden_period num_qubits counts resp h
    unfold run_simon_algorithm at h
    split at h
    · simp at h
    · split at h
      · simp at h
      · split at h
        · simp at h
        · cases h
          exact ⟨rfl, rfl⟩

/-- Witness for C10 at `hidden_period = "11"`, `num_qubits = 4`, counts
`{"01": 512}`. -/
theorem solver_returns_input_period_witness :
    (run_simon_algorithm ['1', '1'] 4 [(['0', '1'], 512)]).toOption.map
        SimonResponse.recovered_period = some ['1', '1'] := by
  cases hrun : run_simon_algorithm ['1', '1'] 4 [(['0', '1'], 512)] with
  | error e =>
    have hok : (run_simon_algorithm ['1', '1'] 4 [(['0', '1'], 512)]).isOk
        = true := by decide
    rw [hrun] at hok
    simp [Except.isOk, Except.toBool] at hok
  | ok resp =>
    have h := (solver_returns_input_period.2
      ['1', '1'] 4 [(['0', '1'], 512)] resp hrun).1
    simp [Except.toOption, h]

/-- Claim C4: the result payload has no `degraded` (or any validity) field —
its schema is exactly the eight fields of `SimonResponse` — even though the
fallback path substitutes the uniform distribution (total probability 1 spread
evenly over all basis states) and continues, signalling only via `print`. -/
theorem fallback_not_flagged_in_payload :
    simonResponseFields.contains "degraded" = false
    ∧ ∀ num_qubits, (fallbackStatevectorProbabilities num_qubits).sum = 1 := by
  refine ⟨by decide, fun num_qubits => ?_⟩
  unfold fallbackStatevectorProbabilities
  rw [List.sum_replicate, nsmul_eq_mul, Nat.cast_pow, Nat.cast_ofNat]
  exact mul_inv_cancel₀ (pow_ne_zero _ two_ne_zero)

/-- Inserting an entry into a partial sort commutes with filtering by an exact
count value: entries passed over have strictly larger counts. -/
theorem filter_insertByCountDesc (x : List Char × Nat)
    (s : List (List Char × Nat)) (k : Nat) :
    (insertByCountDesc x s).filter (fun p => p.2 == k)
      = if x.2 = k then x :: s.filter (fun p => p.2 == k)
        else s.filter (fun p => p.2 == k) := by
  induction s with
  | nil =>
    by_cases hx : x.2 = k <;>
      simp_all [insertByCountDesc, List.filter_cons]
  | cons y ys ih =>
    simp only [insertByCountDesc]
    by_cases hle : y.2 ≤ x.2
    · rw [if_pos hle]
      by_cases hx : x.2 = k <;>
        simp_all [List.filter_cons]
    · rw [if_neg hle]
      by_cases hx : x.2 = k
      · have hy : ¬(y.2 = k) := by omega
        simp_all [List.filter_cons]
      · by_cases hy : y.2 = k <;>
          simp_all [List.filter_cons]

/-- The sort is stable: filtering by any exact count value returns those
entries in their original (insertion) order. -/
theorem sortByCountDesc_stable (counts : List (List Char × Nat)) (k : Nat) :
    (sortByCountDesc counts).filter (fun p => p.2 == k)
      = counts.filter (fun p => p.2 == k) := by
  induction counts with
  | nil => rfl
  | cons x xs ih =>
    simp only [sortByCountDesc, List.foldr_cons] at *
    rw [filter_insertByCountDesc]
    by_cases hx : x.2 = k <;>
      simp [List.filter_cons, beq_iff_eq, hx, ih]

/-- Insertion preserves the descending-count chain. -/
theorem chain'_insertByCountDesc (x : List Char × Nat)
    (s : List (List Char × Nat))
    (h : List.Chain' (fun a b : List Char × Nat => b.2 ≤ a.2) s) :
    List.Chain' (fun a b : List Char × Nat => b.2 ≤ a.2)
      (insertByCountDesc x s) := by
  induction s with
  | nil => simp [insertByCountDesc]
  | cons y ys ih =>
    simp only [insertByCountDesc]
    by_cases hle : y.2 ≤ x.2
    · rw [if_pos hle]
      exact List.chain'_cons.mpr ⟨hle, h⟩
    · rw [if_neg hle]
      have hins := ih h.tail
      rw [List.chain'_cons']
      refine ⟨?_, hins⟩
      intro z hz
      cases ys with
      | nil =>
        simp [insertByCountDesc] at hz
        subst hz
        omega
      | cons w ws =>
        simp only [insertByCountDesc] at hz
        by_cases hw : w.2 ≤ x.2
        · rw [if_pos hw] at hz
          simp at hz
          subst hz
          omega
        · rw [if_neg hw] at hz
          simp at hz
          subst hz
          exact (List.chain'_cons.mp h).1

/-- Inserting is a permutation of consing. -/
theorem perm_insertByCountDesc (x : List Char × Nat)
    (s : List (List Char × Nat)) :
    (insertByCountDesc x s).Perm (x :: s) := by
  induction s with
  | nil =>
    simp only [insertByCountDesc]
    exact List.Perm.refl _
  | cons y ys ih =>
    simp only [insertByCountDesc]
    by_cases hle : y.2 ≤ x.2
    · rw [if_pos hle]
    · rw [if_neg hle]
      exact (ih.cons y).trans (List.Perm.swap x y ys)

/-- The sort permutes the counts list. -/
theorem sortByCountDesc_perm (counts : List (List Char × Nat)) :
    (sortByCountDesc counts).Perm counts := by
  induction counts with
  | nil => exact List.Perm.nil
  | cons x xs ih =>
    simp only [sortByCountDesc, List.foldr_cons] at *
    exact (perm_insertByCountDesc x _).trans (ih.cons x)

/-- The sorted list is in descending count order. -/
theorem sortByCountDesc_sorted (counts : List (List Char × Nat)) :
    List.Chain' (fun a b : List Char × Nat => b.2 ≤ a.2)
      (sortByCountDesc counts) := by
  induction counts with
  | nil => simp [sortByCountDesc]
  | cons x xs ih =>
    simp only [sortByCountDesc, List.foldr_cons] at *
    exact chain'_insertByCountDesc x _ ih

/-- An all-zero measurement contributes nothing: the extraction loop skips it
entirely (no equation, no break check). -/
theorem extractLoop_skips_all_zero (n : Nat) (measurement : List Char)
    (cnt : Nat) (rest : List (List Char × Nat)) (equations : List String)
    (h : measurement.all (fun c => c == '0') = true) :
    extractLoop n ((measurement, cnt) :: rest) equations
      = extractLoop n rest equations := by
  simp [extractLoop, h]

/-- Claim C5 (amended): the all-zero outcome is discarded, and the remaining
outcomes are processed in descending observed frequency with frequency ties
keeping the insertion order of the counts map (Python's stable sort), so the
equation list is determined by the ordered counts list — not by ascending
bitstring value on ties. -/
theorem extraction_order_and_zero_discard
    (counts : List (List Char × Nat)) (k n cnt : Nat)
    (measurement : List Char) (rest : List (List Char × Nat))
    (equations : List String)
    (hzero : measurement.all (fun c => c == '0') = true) :
    (sortByCountDesc counts).filter (fun p => p.2 == k)
        = counts.filter (fun p => p.2 == k)
    ∧ List.Chain' (fun a b : List Char × Nat => b.2 ≤ a.2)
        (sortByCountDesc counts)
    ∧ (sortByCountDesc counts).Perm counts
    ∧ extractLoop n ((measurement, cnt) :: rest) equations
        = extractLoop n rest equations :=
  ⟨sortByCountDesc_stable counts k, sortByCountDesc_sorted counts,
   sortByCountDesc_perm counts,
   extractLoop_skips_all_zero n measurement cnt rest equations hzero⟩

/-- Witness for the amended C5 on the tied counts map. -/
theorem extraction_order_and_zero_discard_witness :
    (['0', '0'].all (fun c => c == '0') = true)
    ∧ ((sortByCountDesc [(['1', '0'], 5), (['0', '1'], 5)]).filter
          (fun p => p.2 == 5)
        = [(['1', '0'], 5), (['0', '1'], 5)].filter (fun p => p.2 == 5)
      ∧ List.Chain' (fun a b : List Char × Nat => b.2 ≤ a.2)
          (sortByCountDesc [(['1', '0'], 5), (['0', '1'], 5)])
      ∧ (sortByCountDesc [(['1', '0'], 5), (['0', '1'], 5)]).Perm
          [(['1', '0'], 5), (['0', '1'], 5)]
      ∧ extractLoop 2 [(['0', '0'], 7)] [] = extractLoop 2 [] []) :=
  ⟨by decide, extraction_order_and_zero_discard
      [(['1', '0'], 5), (['0', '1'], 5)] 5 2 7 ['0', '0'] [] [] (by decide)⟩

end Simon
